import Mathlib

/-!
Verification development for the iib repository: the request/state data
model (`iib/web/models.py`), the legacy export pipeline
(`iib/workers/tasks/legacy.py`) and API-config validation
(`iib/web/app.py`), shallowly embedded in Lean.

Only `iib/web/app.py` is present in the source tree; the models and legacy
modules are modelled from the specification, with concrete strings pinned
by the repository's own test files (`tests/test_web/test_models.py`,
`tests/test_workers/test_tasks/test_legacy.py`).
-/

deriving instance DecidableEq for Except

/-- Validation error of the data model (`iib.exceptions.ValidationError`),
carrying its human-readable message. -/
structure ValidationError where
  msg : String
deriving DecidableEq

/-- Domain operational error (`iib.exceptions.IIBError`), carrying its
human-readable message. -/
structure IIBError where
  msg : String
deriving DecidableEq

/-- Configuration error (`iib.exceptions.ConfigError`) raised by
`validate_api_config`, carried structurally: which check failed and with
which data.  The message text joins a Python set in unspecified order, so
the structured form is the faithful observable. -/
inductive ConfigError where
  | invalidQueues (queues : List String)
  | missingParams (params : List String) (queue : Option String)
  | invalidParams (params : List String) (queue : Option String)
  | badSubjectType (subjectType : String) (queue : Option String)
deriving DecidableEq

/-- Alphabetical (lexicographic, by character code) comparison of
character lists, the order Python's `sorted` uses on the ASCII mapping
names. -/
def charListLe : List Char → List Char → Bool
  | [], _ => true
  | _ :: _, [] => false
  | a :: as, b :: bs => if a = b then charListLe as bs else decide (a < b)

/-- Alphabetical comparison of strings. -/
def strLeB (a b : String) : Bool :=
  charListLe a.data b.data

/-- Modelled from the spec: the closed state mapping of
`iib.web.models.RequestStateMapping` (missing from src/), name→number in
declaration order `in_progress, complete, failed`. -/
def RequestStateMapping : List (String × Int) :=
  [("in_progress", 1), ("complete", 2), ("failed", 3)]

/-- Modelled from the spec: `RequestStateMapping.get_names()` returns all
valid state names in alphabetical order. -/
def RequestStateMapping.get_names : List String :=
  (RequestStateMapping.map Prod.fst).insertionSort (fun a b => strLeB a b = true)

/-- Modelled from the spec: the closed type mapping of
`iib.web.models.RequestTypeMapping` (missing from src/), name→number in
declaration order `add, generic, regenerate_bundle, rm`; the test
`test_request_type_validation` pins the valid numbers as 0..3. -/
def RequestTypeMapping : List (String × Int) :=
  [("add", 0), ("generic", 1), ("regenerate_bundle", 2), ("rm", 3)]

/-- Modelled from the spec: `RequestTypeMapping.get_names()` returns all
valid type names in declaration order. -/
def RequestTypeMapping.get_names : List String :=
  RequestTypeMapping.map Prod.fst

/-- One entry of a request's append-only state history
(`iib.web.models.RequestState`): a state name and a free-text reason. -/
structure RequestState where
  state_name : String
  state_reason : String
deriving DecidableEq

/-- Modelled from the spec: a `iib.web.models.Request` (missing from
src/): an integer type, the ordered append-only state history, and the
architectures keyed by name in first-insertion order. -/
structure Request where
  type : Int
  states : List RequestState
  architectures : List String
deriving DecidableEq

/-- The derived current state: the last element of `states`, absent when
the history is empty. -/
def Request.state (r : Request) : Option RequestState :=
  r.states.getLast?

/-- The terminal state names: `complete` and `failed`. -/
def terminalStates : List String := ["complete", "failed"]

/-- Modelled from the spec: `Request.add_state` (missing from src/).
Validates the state name against the closed enumeration first (message
pinned by `test_request_add_state_invalid_state`), then refuses to move
past a terminal current state (message pinned by
`test_request_add_state_already_done`); on success appends the new state,
which becomes the current state.  The embedding is pure: an error returns
no request, so the history and current state are unchanged by
construction. -/
def Request.add_state (r : Request) (state reason : String) :
    Except ValidationError Request :=
  if state ∈ RequestStateMapping.map Prod.fst then
    match r.state with
    | some st =>
      if st.state_name ∈ terminalStates then
        .error ⟨"A " ++ st.state_name ++ " request cannot change states"⟩
      else
        .ok { r with states := r.states ++ [⟨state, reason⟩] }
    | none => .ok { r with states := r.states ++ [⟨state, reason⟩] }
  else
    .error ⟨"The state \"" ++ state ++ "\" is invalid"⟩

/-- Modelled from the spec: `Request.add_architecture` (missing from
src/): idempotent; an existing name leaves the collection unchanged,
otherwise the name is appended, preserving first-insertion order. -/
def Request.add_architecture (r : Request) (name : String) : Request :=
  if name ∈ r.architectures then r
  else { r with architectures := r.architectures ++ [name] }

/-- A value a caller may pass to the Request constructor as `type`: Python
is dynamically typed, so integers, strings and `None` all reach the
validator. -/
inductive PyVal where
  | int (n : Int)
  | str (s : String)
  | pynone
deriving DecidableEq

/-- How Python's f-string renders the value inside the validation error
message. -/
def PyVal.repr : PyVal → String
  | .int n => toString n
  | .str s => s
  | .pynone => "None"

/-- Modelled from the spec: constructing a `Request` validates `type`
against the type mapping; only a recognized type number yields a request,
anything else fails citing the value (message pinned by
`test_request_type_validation`). -/
def Request.create (t : PyVal) : Except ValidationError Request :=
  match t with
  | .int n =>
    if n ∈ RequestTypeMapping.map Prod.snd then
      .ok { type := n, states := [], architectures := [] }
    else
      .error ⟨(PyVal.int n).repr ++ " is not a valid request type number"⟩
  | v => .error ⟨v.repr ++ " is not a valid request type number"⟩

/-- A state transition recorded against the Request Record Store via
`set_request_state(request_id, state, reason)`. -/
structure StateEvent where
  request_id : Nat
  state : String
  reason : String
deriving DecidableEq

/-- The result of label inspection of one bundle image (§4.3): the package
name label and the backport opt-in label, the latter already matched
exactly against the literal true representation. -/
structure BundleImage where
  package_name : String
  backport : Bool
deriving DecidableEq

/-- Modelled from the spec: `get_legacy_support_packages` of
`iib.workers.tasks.legacy` (missing from src/).  If `force_backport` is
set, it records the `in_progress` transition with reason "Backport legacy
support will be forced" once, before scanning; it then accumulates the
package names of the bundles whose backport label is true, or of all
bundles when forced.  Returns the package set together with the list of
recorded state events. -/
def get_legacy_support_packages (bundles : List BundleImage)
    (request_id : Nat) (force_backport : Bool) :
    Finset String × List StateEvent :=
  let events : List StateEvent :=
    if force_backport then
      [⟨request_id, "in_progress", "Backport legacy support will be forced"⟩]
    else []
  let packages : Finset String :=
    bundles.foldl
      (fun acc b =>
        if force_backport || b.backport then insert b.package_name acc
        else acc)
      ∅
  (packages, events)

/-- Splitting a character list at `/` separators, accumulating the
current component in reverse. -/
def splitSlashAux : List Char → List Char → List (List Char)
  | [], cur => [cur.reverse]
  | c :: rest, cur =>
    if c = '/' then cur.reverse :: splitSlashAux rest []
    else splitSlashAux rest (c :: cur)

/-- The `/`-separated components of a path. -/
def splitSlash (p : String) : List String :=
  (splitSlashAux p.data []).map (fun cs => ⟨cs⟩)

/-- The last path component, as `os.path.basename` computes it for the
paths used by the legacy pipeline. -/
def basename (path : String) : String :=
  ((splitSlash path).getLast?).getD path

/-- The directory part of a path, as `os.path.dirname` computes it. -/
def dirname (path : String) : String :=
  String.intercalate "/" (splitSlash path).dropLast

/-- Modelled from the spec: `_verify_package_info` of
`iib.workers.tasks.legacy` (missing from src/).  `listing` stands for the
directory listing the code reads via `os.listdir`; if the expected package
directory is absent from it the step fails with the message pinned by
`test_verify_package_info_missing_pkg`. -/
def _verify_package_info (package_dir from_index : String)
    (listing : List String) : Except IIBError Unit :=
  if basename package_dir ∈ listing then .ok ()
  else
    .error ⟨"package " ++ basename package_dir ++
      " is missing in index image " ++ from_index⟩

/-- The archive base path `_zip_package` hands to the compression
facility: the `manifests` entry next to the package directory, pinned by
`test_zip_package_success` (`shutil.make_archive('something/manifests',
'zip', 'something/download-pkg')`). -/
def manifestsArchiveBase (package_dir : String) : String :=
  dirname package_dir ++ "/manifests"

/-- Modelled from the spec: `_zip_package` of `iib.workers.tasks.legacy`
(missing from src/).  `make_archive` stands for the compression facility
(`shutil.make_archive`), which may fail with an error of any kind `α`;
any such failure is caught and re-raised as an `IIBError` naming the
package (message pinned by `test_zip_package_failure`). -/
def _zip_package {α : Type} (make_archive : String → String → String → Except α Unit)
    (package_dir : String) : Except IIBError Unit :=
  match make_archive (manifestsArchiveBase package_dir) "zip" package_dir with
  | .ok _ => .ok ()
  | .error _ =>
    .error ⟨"Unable to zip exported package for " ++ basename package_dir⟩

/-- The legacy registry's response to the manifest push, as
`_push_package_manifest` observes it: the success flag, the structured
`message` field when the body parses as structured data (`none` when it
does not), and the raw response text. -/
structure RegistryResponse where
  ok : Bool
  jsonMessage : Option String
  text : String
deriving DecidableEq

/-- Modelled from the spec: `_push_package_manifest` of
`iib.workers.tasks.legacy` (missing from src/).  On a success response it
returns without a value; on a non-success response it fails with the
structured message when the body parses, the raw text otherwise.  The
message spelling "unsucessful" is pinned by the repository's tests
(`test_push_package_manifest_failure` and
`test_push_package_manifest_failure_invalid_json`), which the spec's
"unsuccessful" silently respells. -/
def _push_package_manifest (package_dir cnr_token organization : String)
    (resp : RegistryResponse) : Except IIBError Unit :=
  if resp.ok then .ok ()
  else
    .error ⟨"Push to " ++ organization ++
      " in the legacy app registry was unsucessful: " ++
      (match resp.jsonMessage with
       | some m => m
       | none => resp.text)⟩

/-- The worker configuration as `validate_legacy_params_and_config` reads
it: the legacy registry endpoint, unset when `None`. -/
structure WorkerConfig where
  iib_omps_url : Option String
deriving DecidableEq

/-- Python truthiness of an optional string: `None` and the empty string
are falsy. -/
def strTruthy : Option String → Bool
  | none => false
  | some s => !(s == "")

/-- Modelled from the spec: `validate_legacy_params_and_config` of
`iib.workers.tasks.legacy` (missing from src/).  With a non-empty package
list, missing or empty `cnr_token`/`organization` fails naming the first
package; otherwise an unset `iib_omps_url` in the worker configuration
fails stating legacy app-registry support is not configured; otherwise it
succeeds.  Messages pinned by
`test_validate_legacy_params_and_config_failure`.  The embedding is pure
(the configuration is an argument), so the validation has no side
effects. -/
def validate_legacy_params_and_config (packages bundles : List String)
    (cnr_token organization : Option String) (config : WorkerConfig) :
    Except IIBError Unit :=
  if !(strTruthy cnr_token && strTruthy organization) && !packages.isEmpty then
    .error ⟨"Legacy support is required for " ++ packages.headD "" ++
      "; Both cnr_token and organization should be non-empty strings"⟩
  else if !(strTruthy config.iib_omps_url) then
    .error ⟨"IIB is not configured to handle the legacy app registry"⟩
  else .ok ()

/-- The REST API configuration as `validate_api_config` reads it:
`IIB_GREENWAVE_CONFIG` is a mapping from queue name (`none` denotes the
default Celery queue) to a greenwave parameter mapping, and
`IIB_USER_TO_QUEUE` maps users to queue names. -/
structure ApiConfig where
  iib_greenwave_config : List (Option String × List (String × String))
  iib_user_to_queue : List (String × Option String)
deriving DecidableEq

/-- The parameters `validate_api_config` requires of every greenwave
configuration. -/
def requiredGreenwaveParams : List String :=
  ["decision_context", "product_version", "subject_type"]

/-- The per-queue parameter checks of `validate_api_config`
(src/iib/web/app.py lines 59-82): missing required parameters, unexpected
parameters, then the `subject_type` restriction to `koji_build`, in that
order, per queue in mapping order. -/
def checkGreenwaveParams :
    List (Option String × List (String × String)) → Except ConfigError Unit
  | [] => .ok ()
  | (queue, gw) :: rest =>
    let defined := gw.map Prod.fst
    let missing := requiredGreenwaveParams.filter (fun p => p ∉ defined)
    if missing ≠ [] then .error (.missingParams missing queue)
    else
      let invalid := (defined.filter (fun p => p ∉ requiredGreenwaveParams)).dedup
      if invalid ≠ [] then .error (.invalidParams invalid queue)
      else
        let subj := ((gw.lookup "subject_type").getD "")
        if subj ≠ "koji_build" then .error (.badSubjectType subj queue)
        else checkGreenwaveParams rest

/-- Embedding of `validate_api_config` (src/iib/web/app.py lines 41-82).
With a falsy (empty) `IIB_GREENWAVE_CONFIG` no check runs.  Otherwise,
greenwave queue names absent from `IIB_USER_TO_QUEUE`'s values are
collected — the key `None` is discarded, it configures the default Celery
queue — and reported together if any remain; then the per-queue parameter
checks run. -/
def validate_api_config (config : ApiConfig) : Except ConfigError Unit :=
  if config.iib_greenwave_config.isEmpty then .ok ()
  else
    let definedQueueNames : List (Option String) :=
      config.iib_user_to_queue.map Prod.snd
    let invalidQueues : List String :=
      ((((config.iib_greenwave_config.map Prod.fst).filter
          (fun k => k ∉ definedQueueNames)).filterMap id)).dedup
    if invalidQueues ≠ [] then .error (.invalidQueues invalidQueues)
    else checkGreenwaveParams config.iib_greenwave_config

/-- The distinct elements of a list in first-seen order: the claim-side
reading of "exactly one entry per distinct name, in order of first
insertion". -/
def firstSeen : List String → List String
  | [] => []
  | n :: rest => n :: firstSeen (rest.filter (fun m => m ≠ n))
termination_by l => l.length
decreasing_by
  simp only [List.length_cons]
  exact Nat.lt_succ_of_le (List.length_filter_le _ _)

theorem mem_legacy_foldl (bundles : List BundleImage) (force : Bool)
    (acc : Finset String) (p : String) :
    p ∈ bundles.foldl
        (fun a b => if force || b.backport then insert b.package_name a else a)
        acc ↔
      p ∈ acc ∨ ∃ b ∈ bundles, b.package_name = p ∧ (force = true ∨ b.backport = true) := by
  induction bundles generalizing acc with
  | nil => simp
  | cons b rest ih =>
    simp only [List.foldl_cons]
    by_cases hb : (force || b.backport) = true
    · rw [if_pos hb, ih]
      rw [Bool.or_eq_true] at hb
      simp only [Finset.mem_insert, List.mem_cons]
      constructor
      · rintro (⟨h | h⟩ | ⟨x, hx, hp, hc⟩)
        · exact Or.inr ⟨b, Or.inl rfl, h.symm, hb⟩
        · exact Or.inl h
        · exact Or.inr ⟨x, Or.inr hx, hp, hc⟩
      · rintro (h | ⟨x, hx | hx, hp, hc⟩)
        · exact Or.inl (Or.inr h)
        · exact Or.inl (Or.inl (hx ▸ hp.symm))
        · exact Or.inr ⟨x, hx, hp, hc⟩
    · rw [if_neg hb, ih]
      have hb' : ¬(force = true ∨ b.backport = true) := by
        simpa [Bool.or_eq_true] using hb
      simp only [List.mem_cons]
      constructor
      · rintro (h | ⟨x, hx, hp, hc⟩)
        · exact Or.inl h
        · exact Or.inr ⟨x, Or.inr hx, hp, hc⟩
      · rintro (h | ⟨x, hx | hx, hp, hc⟩)
        · exact Or.inl h
        · exact absurd (hx ▸ hc) hb'
        · exact Or.inr ⟨x, hx, hp, hc⟩

theorem archs_foldl (names : List String) (r : Request) :
    (names.foldl Request.add_architecture r).architectures =
      names.foldl (fun a n => if n ∈ a then a else a ++ [n]) r.architectures := by
  induction names generalizing r with
  | nil => rfl
  | cons n rest ih =>
    simp only [List.foldl_cons]
    rw [ih]
    have harch : (r.add_architecture n).architectures =
        if n ∈ r.architectures then r.architectures else r.architectures ++ [n] := by
      unfold Request.add_architecture
      by_cases h : n ∈ r.architectures
      · rw [if_pos h, if_pos h]
      · rw [if_neg h, if_neg h]
    rw [harch]

theorem foldl_addName_eq (names : List String) (acc : List String) :
    names.foldl (fun a n => if n ∈ a then a else a ++ [n]) acc =
      acc ++ firstSeen (names.filter (fun n => n ∉ acc)) := by
  induction names generalizing acc with
  | nil => simp [firstSeen]
  | cons n rest ih =>
    simp only [List.foldl_cons, List.filter_cons]
    by_cases h : n ∈ acc
    · rw [if_pos h]
      have hd : (decide (n ∉ acc)) = false := by simp [h]
      rw [hd]
      simp only [Bool.false_eq_true, if_false]
      exact ih acc
    · rw [if_neg h]
      have hd : (decide (n ∉ acc)) = true := by simp [h]
      rw [hd]
      simp only [if_true]
      rw [ih (acc ++ [n])]
      have hflt : rest.filter (fun m => m ∉ acc ++ [n]) =
          (rest.filter (fun m => m ∉ acc)).filter (fun m => m ≠ n) := by
        rw [List.filter_filter]
        refine List.filter_congr ?_
        intro m _
        by_cases hm : m ∈ acc <;> by_cases hmn : m = n <;>
          simp [hm, hmn, List.mem_append]
      rw [List.append_assoc]
      congr 1
      show [n] ++ firstSeen (rest.filter fun m => m ∉ acc ++ [n]) =
        firstSeen (n :: rest.filter fun m => m ∉ acc)
      rw [hflt]
      rw [firstSeen]
      rfl

theorem mem_firstSeen (l : List String) : ∀ a, a ∈ firstSeen l ↔ a ∈ l := by
  induction l using firstSeen.induct with
  | case1 => simp [firstSeen]
  | case2 n rest ih =>
    intro a
    rw [firstSeen]
    simp only [List.mem_cons]
    rw [ih a]
    by_cases ha : a = n
    · simp [ha]
    · simp [ha, List.mem_filter]

theorem nodup_firstSeen (l : List String) : (firstSeen l).Nodup := by
  induction l using firstSeen.induct with
  | case1 => simp [firstSeen]
  | case2 n rest ih =>
    rw [firstSeen]
    refine List.nodup_cons.mpr ⟨?_, ih⟩
    intro hmem
    rw [mem_firstSeen] at hmem
    simp [List.mem_filter] at hmem

theorem checkGreenwaveParams_not_invalidQueues :
    ∀ (l : List (Option String × List (String × String))) (qs : List String),
      checkGreenwaveParams l ≠ .error (.invalidQueues qs) := by
  intro l
  induction l with
  | nil => intro qs h; simp [checkGreenwaveParams] at h
  | cons x rest ih =>
    intro qs h
    obtain ⟨queue, gw⟩ := x
    simp only [checkGreenwaveParams] at h
    split at h
    · simp at h
    · split at h
      · simp at h
      · split at h
        · simp at h
        · exact ih qs h

/-- C9: `get_names()` on the state mapping returns exactly
`['complete', 'failed', 'in_progress']` (alphabetical order) and on the
request type mapping exactly `['add', 'generic', 'regenerate_bundle',
'rm']` (declaration order). -/
theorem c9_get_names_canonical :
    RequestStateMapping.get_names = ["complete", "failed", "in_progress"] ∧
    RequestTypeMapping.get_names = ["add", "generic", "regenerate_bundle", "rm"] := by
  decide

/-- C6: whenever the exported directory listing does not contain the
expected package directory, `_verify_package_info` fails with the message
"package <package> is missing in index image <index_ref>"; when the
package is present it succeeds. -/
theorem c6_verify_package_info_missing (package_dir from_index : String)
    (listing : List String) :
    (basename package_dir ∉ listing →
      _verify_package_info package_dir from_index listing =
        .error ⟨"package " ++ basename package_dir ++
          " is missing in index image " ++ from_index⟩) ∧
    (basename package_dir ∈ listing →
      _verify_package_info package_dir from_index listing = .ok ()) := by
  constructor
  · intro h
    simp [_verify_package_info, h]
  · intro h
    simp [_verify_package_info, h]

/-- C6 witness: the repository test's input — directory
`/some/dir/download-pkg`, index `index:image`, listing `[package.yaml]` —
fails citing "package download-pkg is missing in index image
index:image". -/
theorem c6_verify_package_info_missing_witness :
    _verify_package_info "/some/dir/download-pkg" "index:image" ["package.yaml"] =
      .error ⟨"package download-pkg is missing in index image index:image"⟩ := by
  have h :=
    (c6_verify_package_info_missing "/some/dir/download-pkg" "index:image"
      ["package.yaml"]).1 (by decide)
  rw [h]
  decide

/-- C5: whatever error, of whatever kind `α`, the compression facility
fails with, `_zip_package` fails with "Unable to zip exported package for
<package>"; on success it succeeds, having invoked the facility on the
`manifests` archive base next to the package directory. -/
theorem c5_zip_package_wraps_errors {α : Type}
    (make_archive : String → String → String → Except α Unit)
    (package_dir : String) :
    (∀ e, make_archive (dirname package_dir ++ "/manifests") "zip" package_dir = .error e →
      _zip_package make_archive package_dir =
        .error ⟨"Unable to zip exported package for " ++ basename package_dir⟩) ∧
    (make_archive (dirname package_dir ++ "/manifests") "zip" package_dir = .ok () →
      _zip_package make_archive package_dir = .ok ()) := by
  constructor
  · intro e he
    simp [_zip_package, manifestsArchiveBase, he]
  · intro h
    simp [_zip_package, manifestsArchiveBase, h]

/-- C5 witness: the repository test's input — package directory
`something/download-pkg` and a facility failing with an arbitrary
(string-typed) error "Nothing works!" — fails citing "Unable to zip
exported package for download-pkg"; a succeeding facility yields
success. -/
theorem c5_zip_package_wraps_errors_witness :
    _zip_package (fun _ _ _ => (.error "Nothing works!" : Except String Unit))
        "something/download-pkg" =
      .error ⟨"Unable to zip exported package for download-pkg"⟩ ∧
    _zip_package (fun _ _ _ => (.ok () : Except String Unit))
        "something/download-pkg" = .ok () := by
  constructor
  · have h :=
      (c5_zip_package_wraps_errors
        (fun _ _ _ => (.error "Nothing works!" : Except String Unit))
        "something/download-pkg").1 "Nothing works!" rfl
    rw [h]
    decide
  · exact (c5_zip_package_wraps_errors
      (fun _ _ _ => (.ok () : Except String Unit))
      "something/download-pkg").2 rfl

/-- C2: `get_legacy_support_packages` returns the set of package names of
exactly those bundles whose backport label is true — all package names
when `force_backport` is set — and records the `(in_progress, "Backport
legacy support will be forced")` transition exactly once if and only if
`force_backport` is set, regardless of how many bundles are scanned. -/
theorem c2_get_legacy_support_packages (bundles : List BundleImage)
    (request_id : Nat) (force_backport : Bool) :
    (∀ p, p ∈ (get_legacy_support_packages bundles request_id force_backport).1 ↔
      ∃ b ∈ bundles, b.package_name = p ∧
        (force_backport = true ∨ b.backport = true)) ∧
    (get_legacy_support_packages bundles request_id force_backport).2 =
      (if force_backport then
        [⟨request_id, "in_progress", "Backport legacy support will be forced"⟩]
      else []) ∧
    (get_legacy_support_packages bundles request_id force_backport).2.length =
      (if force_backport then 1 else 0) := by
  refine ⟨?_, ?_, ?_⟩
  · intro p
    have h := mem_legacy_foldl bundles force_backport ∅ p
    simp only [Finset.not_mem_empty, false_or] at h
    simpa [get_legacy_support_packages] using h
  · cases force_backport <;> simp [get_legacy_support_packages]
  · cases force_backport <;> simp [get_legacy_support_packages]

/-- C2 witness: the repository test's input — one bundle labelled
`prometheus` without the backport label, forced — yields the package set
containing `prometheus` and the forced transition recorded exactly once;
unforced, the same bundle yields no transition. -/
theorem c2_get_legacy_support_packages_witness :
    "prometheus" ∈ (get_legacy_support_packages [⟨"prometheus", false⟩] 1 true).1 ∧
    (get_legacy_support_packages [⟨"prometheus", false⟩] 1 true).2 =
      [⟨1, "in_progress", "Backport legacy support will be forced"⟩] ∧
    (get_legacy_support_packages [⟨"prometheus", false⟩] 1 false).2 = [] := by
  have h := c2_get_legacy_support_packages [⟨"prometheus", false⟩] 1 true
  have h' := c2_get_legacy_support_packages [⟨"prometheus", false⟩] 1 false
  refine ⟨(h.1 "prometheus").mpr ⟨⟨"prometheus", false⟩, ?_, rfl, Or.inl rfl⟩,
    h.2.1.trans (by decide), h'.2.1.trans (by decide)⟩
  decide

/-- C3 counterexample: on a non-success response with structured body
message `Unauthorized` and organization `organization`, the push fails,
but not with the claim's message "... was unsuccessful: Unauthorized" —
the code and its tests spell it "unsucessful". -/
theorem c3_push_message_counterexample :
    (_push_package_manifest "something/download-pkg" "cnr_token" "organization"
        ⟨false, some "Unauthorized", ""⟩ ≠ .ok ()) ∧
    (_push_package_manifest "something/download-pkg" "cnr_token" "organization"
        ⟨false, some "Unauthorized", ""⟩ ≠
      .error ⟨"Push to organization in the legacy app registry was unsuccessful: Unauthorized"⟩) ∧
    (_push_package_manifest "something/download-pkg" "cnr_token" "organization"
        ⟨false, some "Unauthorized", ""⟩ =
      .error ⟨"Push to organization in the legacy app registry was unsucessful: Unauthorized"⟩) := by
  decide

/-- C3 as amended: on every non-success response `_push_package_manifest`
fails with the message "Push to <organization> in the legacy app registry
was unsucessful: <message>" (spelled as the code and its tests spell it),
where `<message>` is the structured `message` field when the body parses
as structured data and the raw response text otherwise; on a success
response it returns without a value. -/
theorem c3_push_package_manifest_message (package_dir cnr_token organization : String)
    (resp : RegistryResponse) :
    (resp.ok = false →
      _push_package_manifest package_dir cnr_token organization resp =
        .error ⟨"Push to " ++ organization ++
          " in the legacy app registry was unsucessful: " ++
          (match resp.jsonMessage with
           | some m => m
           | none => resp.text)⟩) ∧
    (resp.ok = true →
      _push_package_manifest package_dir cnr_token organization resp = .ok ()) := by
  constructor
  · intro h
    simp [_push_package_manifest, h]
  · intro h
    simp [_push_package_manifest, h]

/-- C3 witness: the two test scenarios — a structured body with message
`Unauthorized`, and an unparsable body with raw text `Something went
wrong` — produce the corresponding messages, and a success response
returns without a value. -/
theorem c3_push_package_manifest_message_witness :
    _push_package_manifest "something/download-pkg" "cnr_token" "organization"
        ⟨false, some "Unauthorized", ""⟩ =
      .error ⟨"Push to organization in the legacy app registry was unsucessful: Unauthorized"⟩ ∧
    _push_package_manifest "something/download-pkg" "cnr_token" "organization"
        ⟨false, none, "Something went wrong"⟩ =
      .error ⟨"Push to organization in the legacy app registry was unsucessful: Something went wrong"⟩ ∧
    _push_package_manifest "something/download-pkg" "cnr_token" "organization"
        ⟨true, none, ""⟩ = .ok () := by
  have h1 := (c3_push_package_manifest_message "something/download-pkg" "cnr_token"
    "organization" ⟨false, some "Unauthorized", ""⟩).1 rfl
  have h2 := (c3_push_package_manifest_message "something/download-pkg" "cnr_token"
    "organization" ⟨false, none, "Something went wrong"⟩).1 rfl
  have h3 := (c3_push_package_manifest_message "something/download-pkg" "cnr_token"
    "organization" ⟨true, none, ""⟩).2 rfl
  exact ⟨h1.trans (by decide), h2.trans (by decide), h3⟩

/-- C4: with a non-empty package list, `validate_legacy_params_and_config`
fails naming the first package and requiring both values to be non-empty
strings whenever `cnr_token` or `organization` is empty or missing;
otherwise it fails stating legacy app-registry support is not configured
whenever `iib_omps_url` is unset; and it succeeds when both parameters
are non-empty and the endpoint is configured.  The embedding is pure, so
validation has no side effects. -/
theorem c4_validate_legacy_params_and_config (packages bundles : List String)
    (cnr_token organization : Option String) (config : WorkerConfig)
    (hne : packages ≠ []) :
    ((strTruthy cnr_token = false ∨ strTruthy organization = false) →
      validate_legacy_params_and_config packages bundles cnr_token organization config =
        .error ⟨"Legacy support is required for " ++ packages.headD "" ++
          "; Both cnr_token and organization should be non-empty strings"⟩) ∧
    (strTruthy cnr_token = true → strTruthy organization = true →
      strTruthy config.iib_omps_url = false →
      validate_legacy_params_and_config packages bundles cnr_token organization config =
        .error ⟨"IIB is not configured to handle the legacy app registry"⟩) ∧
    (strTruthy cnr_token = true → strTruthy organization = true →
      strTruthy config.iib_omps_url = true →
      validate_legacy_params_and_config packages bundles cnr_token organization config =
        .ok ()) := by
  cases packages with
  | nil => exact absurd rfl hne
  | cons p ps =>
    refine ⟨?_, ?_, ?_⟩
    · rintro (h | h) <;>
        simp [validate_legacy_params_and_config, h]
    · intro h1 h2 h3
      simp [validate_legacy_params_and_config, h1, h2, h3]
    · intro h1 h2 h3
      simp [validate_legacy_params_and_config, h1, h2, h3]

/-- C4 witness: the repository test's inputs — package `prometheus` with
a missing token fails naming prometheus; with a token but no configured
endpoint fails citing the missing legacy configuration; with both
present and configured it succeeds. -/
theorem c4_validate_legacy_params_and_config_witness :
    validate_legacy_params_and_config ["prometheus"] ["quay.io/msd/bundle"]
        none (some "org") ⟨none⟩ =
      .error ⟨"Legacy support is required for prometheus; Both cnr_token and organization should be non-empty strings"⟩ ∧
    validate_legacy_params_and_config ["prometheus"] ["quay.io/msd/bundle"]
        (some "token") (some "org") ⟨none⟩ =
      .error ⟨"IIB is not configured to handle the legacy app registry"⟩ ∧
    validate_legacy_params_and_config ["prometheus"] ["quay.io/msd/bundle"]
        (some "cnr_token_val") (some "org") ⟨some "https://omps.example.org"⟩ =
      .ok () := by
  have h1 := c4_validate_legacy_params_and_config ["prometheus"] ["quay.io/msd/bundle"]
    none (some "org") ⟨none⟩ (by decide)
  have h2 := c4_validate_legacy_params_and_config ["prometheus"] ["quay.io/msd/bundle"]
    (some "token") (some "org") ⟨none⟩ (by decide)
  have h3 := c4_validate_legacy_params_and_config ["prometheus"] ["quay.io/msd/bundle"]
    (some "cnr_token_val") (some "org") ⟨some "https://omps.example.org"⟩ (by decide)
  exact ⟨(h1.1 (Or.inl rfl)).trans (by decide), h2.2.1 rfl rfl rfl, h3.2.2 rfl rfl rfl⟩

/-- C1: once a request's current state is terminal (`complete` or
`failed`), every `add_state` call fails — a valid state name fails with
the `ValidationError` naming the terminal state — and, the embedding
being pure, an error leaves the state history and current state
unchanged; before any terminal state exists, `add_state` with a valid
state name appends a new state that becomes the current state. -/
theorem c1_add_state_terminal (r : Request) (name reason : String) :
    (∀ t, r.state = some t → t.state_name ∈ terminalStates →
      ((r.add_state name reason).isOk = false) ∧
      (name ∈ RequestStateMapping.map Prod.fst →
        r.add_state name reason =
          .error ⟨"A " ++ t.state_name ++ " request cannot change states"⟩)) ∧
    ((∀ t, r.state = some t → t.state_name ∉ terminalStates) →
      name ∈ RequestStateMapping.map Prod.fst →
      r.add_state name reason =
        .ok { r with states := r.states ++ [⟨name, reason⟩] } ∧
      ({ r with states := r.states ++ [⟨name, reason⟩] } : Request).state =
        some ⟨name, reason⟩) := by
  constructor
  · intro t ht hterm
    constructor
    · by_cases hn : name ∈ RequestStateMapping.map Prod.fst
      · simp [Request.add_state, hn, ht, hterm, Except.isOk, Except.toBool]
      · simp [Request.add_state, hn, Except.isOk, Except.toBool]
    · intro hn
      simp [Request.add_state, hn, ht, hterm]
  · intro hnt hn
    constructor
    · cases hs : r.state with
      | none => simp [Request.add_state, hn, hs]
      | some st =>
        have hnterm := hnt st hs
        simp [Request.add_state, hn, hs, hnterm]
    · simp [Request.state, List.getLast?_concat]

/-- C1 witness: the repository test's scenario — a request whose current
state is `complete` refuses `in_progress` with the error naming
`complete`, while a fresh request accepts `in_progress`, which becomes
its current state. -/
theorem c1_add_state_terminal_witness :
    Request.add_state ⟨0, [⟨"complete", "All done!"⟩], []⟩ "in_progress" "Oops!" =
      .error ⟨"A complete request cannot change states"⟩ ∧
    Request.add_state ⟨0, [], []⟩ "in_progress" "Starting things up" =
      .ok ⟨0, [⟨"in_progress", "Starting things up"⟩], []⟩ := by
  have h1 := (c1_add_state_terminal ⟨0, [⟨"complete", "All done!"⟩], []⟩
    "in_progress" "Oops!").1 ⟨"complete", "All done!"⟩ rfl (by decide)
  have h2 := (c1_add_state_terminal ⟨0, [], []⟩ "in_progress" "Starting things up").2
    (by intro t ht; simp [Request.state] at ht) (by decide)
  exact ⟨h1.2 (by decide), h2.1⟩

/-- C7: constructing a Request succeeds exactly when the type value is an
integer among the valid request type numbers; any other value — other
integers, strings such as "1", or None — fails with the `ValidationError`
citing the value, and no request is created (the embedding returns no
request on error). -/
theorem c7_request_type_validation (v : PyVal) :
    ((Request.create v).isOk = true ↔
      ∃ n : Int, v = .int n ∧ n ∈ RequestTypeMapping.map Prod.snd) ∧
    ((¬∃ n : Int, v = .int n ∧ n ∈ RequestTypeMapping.map Prod.snd) →
      Request.create v = .error ⟨v.repr ++ " is not a valid request type number"⟩) ∧
    (∀ n : Int, v = .int n → n ∈ RequestTypeMapping.map Prod.snd →
      Request.create v = .ok ⟨n, [], []⟩) := by
  refine ⟨?_, ?_, ?_⟩
  · cases v with
    | int n =>
      by_cases hn : n ∈ RequestTypeMapping.map Prod.snd
      · simp only [Request.create, if_pos hn, Except.isOk, Except.toBool]
        exact ⟨fun _ => ⟨n, rfl, hn⟩, fun _ => trivial⟩
      · simp only [Request.create, if_neg hn, Except.isOk, Except.toBool]
        refine ⟨fun h => absurd h (by simp), ?_⟩
        rintro ⟨m, hm, hmem⟩
        cases hm
        exact absurd hmem hn
    | str s =>
      simp only [Request.create, Except.isOk, Except.toBool]
      refine ⟨fun h => absurd h (by simp), ?_⟩
      rintro ⟨m, hm, _⟩
      cases hm
    | pynone =>
      simp only [Request.create, Except.isOk, Except.toBool]
      refine ⟨fun h => absurd h (by simp), ?_⟩
      rintro ⟨m, hm, _⟩
      cases hm
  · intro hno
    cases v with
    | int n =>
      have hn : n ∉ RequestTypeMapping.map Prod.snd := by
        intro hmem
        exact hno ⟨n, rfl, hmem⟩
      simp [Request.create, hn, PyVal.repr]
    | str s => simp [Request.create, PyVal.repr]
    | pynone => simp [Request.create, PyVal.repr]
  · rintro n rfl hn
    simp [Request.create, hn]

/-- C7 witness: the repository test's inputs — type 2 constructs a
request, the string "1" and None fail citing the value, and 5 does not
construct a request. -/
theorem c7_request_type_validation_witness :
    Request.create (.int 2) = .ok ⟨2, [], []⟩ ∧
    Request.create (.str "1") = .error ⟨"1 is not a valid request type number"⟩ ∧
    Request.create .pynone = .error ⟨"None is not a valid request type number"⟩ ∧
    (Request.create (.int 5)).isOk = false := by
  have h2 := (c7_request_type_validation (.int 2)).2.2 2 rfl (by decide)
  have hs := (c7_request_type_validation (.str "1")).2.1
    (by rintro ⟨n, hn, _⟩; cases hn)
  have hp := (c7_request_type_validation .pynone).2.1
    (by rintro ⟨n, hn, _⟩; cases hn)
  have h5 : (Request.create (.int 5)).isOk = false := by
    cases hx : (Request.create (.int 5)).isOk
    · rfl
    · obtain ⟨m, hm, hmem⟩ := (c7_request_type_validation (.int 5)).1.mp hx
      cases hm
      exact absurd hmem (by decide)
  exact ⟨h2, hs.trans (by decide), hp.trans (by decide), h5⟩

/-- C8: folding any sequence of `add_architecture` calls over a request
with no architectures yields exactly one entry per distinct name, in
first-insertion order (`firstSeen`), with no duplicates; and on any
request, adding a name that already exists returns the request
unchanged. -/
theorem c8_add_architecture_first_seen (names : List String) (r : Request)
    (h : r.architectures = []) :
    ((names.foldl Request.add_architecture r).architectures = firstSeen names) ∧
    (names.foldl Request.add_architecture r).architectures.Nodup ∧
    (∀ n, n ∈ (names.foldl Request.add_architecture r).architectures ↔ n ∈ names) ∧
    (∀ (r₂ : Request) (n : String), n ∈ r₂.architectures →
      r₂.add_architecture n = r₂) := by
  have key : (names.foldl Request.add_architecture r).architectures = firstSeen names := by
    rw [archs_foldl, h, foldl_addName_eq]
    simp
  refine ⟨key, ?_, ?_, ?_⟩
  · rw [key]
    exact nodup_firstSeen names
  · intro n
    rw [key]
    exact mem_firstSeen names n
  · intro r₂ n hn
    unfold Request.add_architecture
    rw [if_pos hn]

/-- C8 witness: the repository test's sequence — adding `amd64`, `s390x`,
then `amd64` again — leaves exactly `[amd64, s390x]`, and re-adding
`amd64` is the identity. -/
theorem c8_add_architecture_first_seen_witness :
    (["amd64", "s390x", "amd64"].foldl Request.add_architecture
      ⟨0, [], []⟩).architectures = ["amd64", "s390x"] ∧
    Request.add_architecture ⟨0, [], ["amd64", "s390x"]⟩ "amd64" =
      ⟨0, [], ["amd64", "s390x"]⟩ := by
  have h := c8_add_architecture_first_seen ["amd64", "s390x", "amd64"] ⟨0, [], []⟩ rfl
  refine ⟨h.1.trans ?_, h.2.2.2 ⟨0, [], ["amd64", "s390x"]⟩ "amd64" (by decide)⟩
  simp [firstSeen]

theorem validate_api_config_invalidQueues_iff (config : ApiConfig) (qs : List String) :
    validate_api_config config = .error (.invalidQueues qs) ↔
      (config.iib_greenwave_config ≠ [] ∧ qs ≠ [] ∧
       qs = (((config.iib_greenwave_config.map Prod.fst).filter
               (fun k => k ∉ config.iib_user_to_queue.map Prod.snd)).filterMap id).dedup) := by
  by_cases he : config.iib_greenwave_config = []
  · simp [validate_api_config, he]
  · have hbe : config.iib_greenwave_config.isEmpty = false := by
      simpa [List.isEmpty_iff] using he
    simp only [validate_api_config, hbe, Bool.false_eq_true, if_false]
    by_cases hL : (((config.iib_greenwave_config.map Prod.fst).filter
        (fun k => k ∉ config.iib_user_to_queue.map Prod.snd)).filterMap id).dedup = []
    · rw [hL]
      simp only [ne_eq, not_true_eq_false, if_false]
      constructor
      · intro h
        exact absurd h (checkGreenwaveParams_not_invalidQueues _ qs)
      · rintro ⟨_, hqs, rfl⟩
        exact absurd rfl hqs
    · rw [if_pos hL]
      constructor
      · intro h
        injection h with h'
        injection h' with h''
        exact ⟨he, h'' ▸ hL, h''.symm⟩
      · rintro ⟨_, _, rfl⟩
        rfl

theorem mem_invalid_queue_list (config : ApiConfig) (q : String) :
    q ∈ (((config.iib_greenwave_config.map Prod.fst).filter
          (fun k => k ∉ config.iib_user_to_queue.map Prod.snd)).filterMap id).dedup ↔
      (some q ∈ config.iib_greenwave_config.map Prod.fst ∧
       some q ∉ config.iib_user_to_queue.map Prod.snd) := by
  rw [List.mem_dedup, List.mem_filterMap]
  constructor
  · rintro ⟨a, ha, haq⟩
    simp only [id_eq] at haq
    subst haq
    rw [List.mem_filter] at ha
    exact ⟨ha.1, by simpa using ha.2⟩
  · rintro ⟨hk, hv⟩
    refine ⟨some q, ?_, rfl⟩
    rw [List.mem_filter]
    exact ⟨hk, by simpa using hv⟩

/-- C10: with a non-empty `IIB_GREENWAVE_CONFIG`, `validate_api_config`
never reports the key `None` as an invalid queue name — only names of
`some`-keys absent from `IIB_USER_TO_QUEUE`'s values are reported, and a
configuration whose greenwave keys are all covered (apart from `None`)
never fails the queue check — while any other greenwave queue name absent
from the values causes a `ConfigError` listing exactly the invalid
queues; with an empty `IIB_GREENWAVE_CONFIG`, no check runs and the
configuration is accepted. -/
theorem c10_validate_api_config_none_exempt (config : ApiConfig) :
    (config.iib_greenwave_config = [] → validate_api_config config = .ok ()) ∧
    (∀ qs, validate_api_config config = .error (.invalidQueues qs) →
      ∀ q, q ∈ qs ↔
        (some q ∈ config.iib_greenwave_config.map Prod.fst ∧
         some q ∉ config.iib_user_to_queue.map Prod.snd)) ∧
    ((∀ q : String, some q ∈ config.iib_greenwave_config.map Prod.fst →
        some q ∈ config.iib_user_to_queue.map Prod.snd) →
      ∀ qs, validate_api_config config ≠ .error (.invalidQueues qs)) ∧
    (config.iib_greenwave_config ≠ [] →
      (∃ q : String, some q ∈ config.iib_greenwave_config.map Prod.fst ∧
        some q ∉ config.iib_user_to_queue.map Prod.snd) →
      ∃ qs, validate_api_config config = .error (.invalidQueues qs) ∧ qs ≠ []) := by
  refine ⟨?_, ?_, ?_, ?_⟩
  · intro he
    simp [validate_api_config, he]
  · intro qs hqs q
    obtain ⟨_, _, rfl⟩ := (validate_api_config_invalidQueues_iff config qs).mp hqs
    exact mem_invalid_queue_list config q
  · intro hall qs hqs
    obtain ⟨_, hne, rfl⟩ := (validate_api_config_invalidQueues_iff config qs).mp hqs
    refine hne (List.eq_nil_iff_forall_not_mem.mpr ?_)
    intro q hq
    obtain ⟨hk, hv⟩ := (mem_invalid_queue_list config q).mp hq
    exact hv (hall q hk)
  · intro hne hex
    obtain ⟨q, hk, hv⟩ := hex
    have hq : q ∈ (((config.iib_greenwave_config.map Prod.fst).filter
        (fun k => k ∉ config.iib_user_to_queue.map Prod.snd)).filterMap id).dedup :=
      (mem_invalid_queue_list config q).mpr ⟨hk, hv⟩
    have hLne : (((config.iib_greenwave_config.map Prod.fst).filter
        (fun k => k ∉ config.iib_user_to_queue.map Prod.snd)).filterMap id).dedup ≠ [] := by
      intro h
      rw [h] at hq
      cases hq
    exact ⟨_, (validate_api_config_invalidQueues_iff config _).mpr ⟨hne, hLne, rfl⟩, hLne⟩

/-- C10 witness: a configuration whose only greenwave key is the queue
name `badq`, with no user-to-queue values, is rejected with a non-empty
invalid-queue list; a configuration with an empty greenwave config is
accepted unchecked. -/
theorem c10_validate_api_config_none_exempt_witness :
    (∃ qs, validate_api_config ⟨[(some "badq", [])], []⟩ =
      .error (.invalidQueues qs) ∧ qs ≠ []) ∧
    validate_api_config ⟨[], [("user", some "q")]⟩ = .ok () := by
  have h := c10_validate_api_config_none_exempt ⟨[(some "badq", [])], []⟩
  have h0 := c10_validate_api_config_none_exempt ⟨[], [("user", some "q")]⟩
  exact ⟨h.2.2.2 (by decide) ⟨"badq", by decide, by decide⟩, h0.1 rfl⟩
